import Mathlib

/-!
# Verification of scaffold-kit's glob pattern compiler and ignore parser

This file embeds, at the level of `List Char` / `String`, the two modules
`scaffold_kit.utils.pattern_processor` and `scaffold_kit.utils.ignore_parser`:

* `convertGlobPart`, `normalizePatternL`, `joinRegexPartsL`, `patternToRegexL`
  mirror `GlobProcessor.convert_glob_part`, `PatternProcessor._normalize_pattern`,
  `PatternProcessor._join_regex_parts` and `PatternProcessor.pattern_to_regex`,
  producing the exact regex source strings the Python code produces.
* A small regular-expression engine (`Reg`, `derivStep`, `rmatch`, `parseSeq`,
  `regexAccepts`) models the semantics the Python `re` module gives to the
  produced dialect of regexes (escaped literals, `[...]` classes with `^`
  negation, `.`, postfix `*` and `?`, non-capturing groups, `^`/`$` anchors).
* `ruleFromPattern`, `IgnoreRule.matches`, `parserMatches`, `parserFilter`,
  `addLines` mirror `IgnoreRule.from_pattern`, `IgnoreRule.matches`,
  `IgnoreParser.matches`, `IgnoreParser.filter` and `IgnoreParser.add_lines`.
  The call `p.is_dir()` inside `IgnoreParser.matches` consults the filesystem;
  it is modelled by an explicit oracle `fsIsDir : String → Bool`.
-/

/-! ## Python `re.escape` (Python ≥ 3.7: only special characters are escaped) -/

/-- The characters escaped by `re.escape` in CPython ≥ 3.7
(`b'()[]{}?*+-|^$\\.&~# \t\n\r\v\f'`). -/
def reSpecialChars : List Char :=
  ['(', ')', '[', ']', '{', '}', '?', '*', '+', '-', '|', '^', '$', '\\',
   '.', '&', '~', '#', ' ', '\t', '\n', '\r', '\x0b', '\x0c']

/-- `re.escape` applied to a single character. -/
def reEscapeChar (c : Char) : List Char :=
  if c ∈ reSpecialChars then ['\\', c] else [c]

/-! ## `CharacterClassHandler.handle` -/

/-- Index of the first `']'` in `text` at or after position `i`
(`text.length` when there is none): the scan loop of
`CharacterClassHandler.handle`. -/
def findCloseBracketFrom (text : List Char) (i : Nat) : Nat :=
  i + ((text.drop i).takeWhile (fun c => c ≠ ']')).length

/-- `CharacterClassHandler.handle`: captures the whole `[...]` class verbatim,
skipping a leading `!`/`^` negation marker and an immediately following `]`
while looking for the closing bracket; when no closing bracket exists the `[`
is emitted as an escaped literal. -/
def handleCharClass (text : List Char) (position : Nat) : List Char × Nat :=
  let start := position
  let i := position + 1
  -- Handle negation characters.
  let i := if i < text.length && (text.getD i ' ' == '!' || text.getD i ' ' == '^')
           then i + 1 else i
  -- Handle immediate closing bracket.
  let i := if i < text.length && text.getD i ' ' == ']' then i + 1 else i
  -- Find the closing bracket.
  let i := findCloseBracketFrom text i
  if i < text.length then
    ((text.drop start).take (i + 1 - start), i + 1)
  else
    (reEscapeChar '[', position + 1)

/-! ## `GlobProcessor.convert_glob_part` -/

/-- One step of the handler dispatch in `GlobProcessor.convert_glob_part`:
`*` → `[^/]*`, `?` → `[^/]`, `[` → the character-class handler, anything
else → the escaped literal. Returns the replacement and the new position. -/
def globStep (part : List Char) (position : Nat) : List Char × Nat :=
  let c := part.getD position ' '
  if c == '*' then (['[', '^', '/', ']', '*'], position + 1)
  else if c == '?' then (['[', '^', '/', ']'], position + 1)
  else if c == '[' then handleCharClass part position
  else (reEscapeChar c, position + 1)

/-- The `while position < len(part)` loop of `convert_glob_part`,
with fuel bounding the number of iterations (each step advances
the position by at least one). -/
def convertGlobGo (part : List Char) : Nat → Nat → List Char
  | 0, _ => []
  | fuel + 1, position =>
    if position < part.length then
      let step := globStep part position
      step.1 ++ convertGlobGo part fuel step.2
    else []

/-- `GlobProcessor.convert_glob_part`: `**` becomes `.*`; otherwise the
character handlers are applied left to right. -/
def convertGlobPart (part : List Char) : List Char :=
  if part = ['*', '*'] then ['.', '*']
  else convertGlobGo part (part.length + 1) 0

/-! ## `PatternProcessor` -/

/-- Python's `str.split("/")`. -/
def splitSlash : List Char → List (List Char)
  | [] => [[]]
  | '/' :: rest => [] :: splitSlash rest
  | c :: rest =>
    match splitSlash rest with
    | [] => [[c]]
    | g :: gs => (c :: g) :: gs

/-- `PatternProcessor._normalize_pattern`: a pattern with no slash is treated
as if preceded by `**/`; a leading slash is stripped (root anchoring). -/
def normalizePatternL (pattern : List Char) : List Char :=
  let p1 := if pattern.contains '/' then pattern else '*' :: '*' :: '/' :: pattern
  if p1.head? = some '/' then p1.tail else p1

/-- The loop of `PatternProcessor._join_regex_parts`: a `/` separator is added
between consecutive parts unless either neighbour is the `.*` produced
from `**`. -/
def joinRegexGo (result : List Char) (prev : List Char) : List (List Char) → List Char
  | [] => result
  | curr :: rest =>
    let result :=
      if prev ≠ ['.', '*'] && curr ≠ ['.', '*'] then result ++ '/' :: curr
      else result ++ curr
    joinRegexGo result curr rest

/-- `PatternProcessor._join_regex_parts`. -/
def joinRegexPartsL : List (List Char) → List Char
  | [] => []
  | r :: rest => joinRegexGo r r rest

/-- `PatternProcessor.pattern_to_regex`: normalize, split on `/`, convert each
part, join, and add `^`/`$` anchors. -/
def patternToRegexL (pattern : List Char) : List Char :=
  let normalized := normalizePatternL pattern
  let parts := splitSlash normalized
  let regexParts := parts.map convertGlobPart
  '^' :: joinRegexPartsL regexParts ++ ['$']

/-- `pattern_to_regex` on `String`s. -/
def patternToRegex (pattern : String) : String :=
  String.mk (patternToRegexL pattern.data)

/-! ## A model of the Python `re` engine on the produced regex dialect

The regexes produced by `pattern_to_regex` (possibly rewritten by
`IgnoreRule.from_pattern` into `... (?:/.*)?$`) use only: escaped literals,
plain literal characters, `.`, `[...]` character classes with optional `^`
negation, postfix `*` and `?`, non-capturing groups `(?:...)`, and the
`^`/`$` anchors. They are given their Python `re` semantics below via
Brzozowski derivatives. -/

/-- An item of a character class: a single character or a range. -/
inductive CItem where
  | single (c : Char)
  | range (lo hi : Char)
deriving DecidableEq, Repr

/-- Regular expressions. -/
inductive Reg where
  | emp
  | eps
  | chr (c : Char)
  | cls (neg : Bool) (items : List CItem)
  | cat (a b : Reg)
  | alt (a b : Reg)
  | star (a : Reg)
deriving DecidableEq, Repr

/-- Python's `.` (without `DOTALL`): any character except a newline. -/
def dotReg : Reg := Reg.cls true [CItem.single '\n']

/-- Membership of a character in a list of class items. -/
def cmem (c : Char) : List CItem → Bool
  | [] => false
  | CItem.single d :: rest => c == d || cmem c rest
  | CItem.range lo hi :: rest => (lo ≤ c && c ≤ hi) || cmem c rest

/-- Whether a character class (possibly negated) matches a character. -/
def clsMatch (neg : Bool) (items : List CItem) (c : Char) : Bool :=
  if neg then !(cmem c items) else cmem c items

/-- Whether a regex accepts the empty string. -/
def nullable : Reg → Bool
  | Reg.emp => false
  | Reg.eps => true
  | Reg.chr _ => false
  | Reg.cls _ _ => false
  | Reg.cat a b => nullable a && nullable b
  | Reg.alt a b => nullable a || nullable b
  | Reg.star _ => true

/-- Smart concatenation (keeps derivatives small). -/
def rcat : Reg → Reg → Reg
  | Reg.emp, _ => Reg.emp
  | _, Reg.emp => Reg.emp
  | Reg.eps, b => b
  | a, Reg.eps => a
  | a, b => Reg.cat a b

/-- Smart alternation (keeps derivatives small). -/
def ralt : Reg → Reg → Reg
  | Reg.emp, b => b
  | a, Reg.emp => a
  | a, b => Reg.alt a b

/-- Brzozowski derivative of a regex with respect to a character. -/
def derivStep : Reg → Char → Reg
  | Reg.emp, _ => Reg.emp
  | Reg.eps, _ => Reg.emp
  | Reg.chr d, c => if c == d then Reg.eps else Reg.emp
  | Reg.cls neg items, c => if clsMatch neg items c then Reg.eps else Reg.emp
  | Reg.cat a b, c =>
    if nullable a then ralt (rcat (derivStep a c) b) (derivStep b c)
    else rcat (derivStep a c) b
  | Reg.alt a b, c => ralt (derivStep a c) (derivStep b c)
  | Reg.star a, c => rcat (derivStep a c) (Reg.star a)

/-- Whether a regex matches the whole character list. -/
def rmatch (r : Reg) (s : List Char) : Bool :=
  nullable (s.foldl derivStep r)

/-- Parses the items of a character class body up to the closing `]`
(Python rules: `\c` is a literal, `a-b` is a range unless the `-` is last,
a lone `-` is a literal). Returns the items and the input after the `]`. -/
def parseClassItems : Nat → List Char → Option (List CItem × List Char)
  | 0, _ => none
  | _, [] => none
  | _ + 1, ']' :: rest => some ([], rest)
  | fuel + 1, '\\' :: c :: rest =>
    match parseClassItems fuel rest with
    | some (items, r) => some (CItem.single c :: items, r)
    | none => none
  | fuel + 1, c :: '-' :: ']' :: rest =>
    match parseClassItems fuel (']' :: rest) with
    | some (items, r) => some (CItem.single c :: CItem.single '-' :: items, r)
    | none => none
  | fuel + 1, c :: '-' :: d :: rest =>
    match parseClassItems fuel rest with
    | some (items, r) => some (CItem.range c d :: items, r)
    | none => none
  | fuel + 1, c :: rest =>
    match parseClassItems fuel rest with
    | some (items, r) => some (CItem.single c :: items, r)
    | none => none

/-- Parses a character class after its opening `[`: an optional `^` negation,
then an optional first `]` taken literally, then the items. -/
def parseClass (input : List Char) : Option (Reg × List Char) :=
  let negRest : Bool × List Char :=
    match input with
    | '^' :: r => (true, r)
    | _ => (false, input)
  let leadRest : List CItem × List Char :=
    match negRest.2 with
    | ']' :: r => ([CItem.single ']'], r)
    | _ => ([], negRest.2)
  match parseClassItems (leadRest.2.length + 1) leadRest.2 with
  | some (items, rest) => some (Reg.cls negRest.1 (leadRest.1 ++ items), rest)
  | none => none

/-- Parses a sequence of atoms with optional postfix `*`/`?`, stopping at the
end of the input or at a `)`. Fuel bounds the recursion; every recursive
call is on a strictly shorter input, so `length + 1` fuel always suffices. -/
def parseSeq : Nat → List Char → Option (Reg × List Char)
  | 0, _ => none
  | _ + 1, [] => some (Reg.eps, [])
  | _ + 1, ')' :: rest => some (Reg.eps, ')' :: rest)
  | fuel + 1, input =>
    let atomResult : Option (Reg × List Char) :=
      match input with
      | '\\' :: c :: rest => some (Reg.chr c, rest)
      | '.' :: rest => some (dotReg, rest)
      | '[' :: rest => parseClass rest
      | '(' :: '?' :: ':' :: rest =>
        match parseSeq fuel rest with
        | some (r, ')' :: rest2) => some (r, rest2)
        | _ => none
      | c :: rest =>
        if c == '*' || c == '?' || c == '(' || c == '\\' || c == '^' || c == '$'
        then none else some (Reg.chr c, rest)
      | [] => none
    match atomResult with
    | none => none
    | some (atom, rest) =>
      let starred : Reg × List Char :=
        match rest with
        | '*' :: rest2 => (Reg.star atom, rest2)
        | '?' :: rest2 => (Reg.alt Reg.eps atom, rest2)
        | _ => (atom, rest)
      match parseSeq fuel starred.2 with
      | some (tailR, rest3) => some (Reg.cat starred.1 tailR, rest3)
      | none => none

/-- Parses a full anchored regex `^...$` into a `Reg` (the anchors are
consumed; a full-string match against the body is then equivalent to
Python's `re.match` against the anchored regex). -/
def parseAnchored (regex : List Char) : Option Reg :=
  let body :=
    match regex with
    | '^' :: rest => rest
    | other => other
  let body := if body.getLast? = some '$' then body.dropLast else body
  match parseSeq (body.length + 1) body with
  | some (r, []) => some r
  | _ => none

/-- Whether the compiled form of `regex` matches all of `path`, as Python's
`re.match` does for the `^...$`-anchored regexes this program produces. -/
def regexAccepts (regex : String) (path : String) : Bool :=
  match parseAnchored regex.data with
  | some r => rmatch r path.data
  | none => false

/-- The matcher obtained by compiling a glob pattern with
`pattern_to_regex` and testing a path with `re.match`. -/
def globAccepts (pattern path : String) : Bool :=
  regexAccepts (patternToRegex pattern) path

/-! ## `IgnoreRule` -/

/-- Python's `str.strip("/")`: removes `/` characters from both ends. -/
def stripSlashes (s : String) : String :=
  String.mk (((s.data.dropWhile (fun c => c == '/')).reverse.dropWhile
    (fun c => c == '/')).reverse)

/-- A single ignore rule: the original pattern text, the regex source string
the rule compiles to, and the negation / directory-only flags
(`IgnoreRule.__init__`). -/
structure IgnoreRule where
  pattern : String
  regex : String
  negated : Bool
  dirOnly : Bool
deriving DecidableEq, Repr

/-- `IgnoreRule.from_pattern`: strip a leading `!` (negation) and a trailing
`/` (directory-only), compile the remainder with `pattern_to_regex`, and for
directory-only rules replace the final `$` anchor with `(?:/.*)?$`. -/
def ruleFromPattern (pattern : String) : IgnoreRule :=
  let originalPattern := pattern
  let negated : Bool := pattern.data.head? = some '!'
  let pattern := if negated then String.mk (pattern.data.drop 1) else pattern
  let dirOnly : Bool := pattern.data.getLast? = some '/'
  let pattern := if dirOnly then String.mk pattern.data.dropLast else pattern
  let regexStr := patternToRegex pattern
  let regexStr :=
    if dirOnly then String.mk (regexStr.data.dropLast ++ "(?:/.*)?$".data)
    else regexStr
  { pattern := originalPattern, regex := regexStr,
    negated := negated, dirOnly := dirOnly }

/-- `IgnoreRule.matches`: the path must match the rule's regex, and a
directory-only rule does not match a non-directory whose path is exactly the
rule's own pattern with the `/` characters stripped from both ends. -/
def IgnoreRule.matches (r : IgnoreRule) (path : String) (isDir : Bool) : Bool :=
  if !(regexAccepts r.regex path) then false
  else if r.dirOnly && !isDir && path == stripSlashes r.pattern then false
  else true

/-! ## `IgnoreParser`

A parser constructed with `base_path=None` is modelled: its rule list, plus a
filesystem oracle `fsIsDir` standing for `Path(path).is_dir()`. For such a
parser `_rel_to_base` returns `str(p)` and `_normalize_path` returns
`Path(path).as_posix()`; their composition on a slash-separated path is
modelled by `normalizePath`. -/

/-- `str(Path(path).as_posix())` for slash-separated paths: repeated slashes
collapse, `.` components and a trailing slash disappear, the empty path
becomes `.`, a root (or POSIX double-slash root) is preserved. -/
def normalizePath (path : String) : String :=
  let comps := (splitSlash path.data).filter (fun c => c ≠ [] && c ≠ ['.'])
  let root : List Char :=
    match path.data with
    | '/' :: '/' :: '/' :: _ => ['/']
    | '/' :: '/' :: _ => ['/', '/']
    | '/' :: _ => ['/']
    | _ => []
  let joined := root ++ List.intercalate ['/'] comps
  if joined.isEmpty then String.mk ['.'] else String.mk joined

/-- The rule loop of `IgnoreParser.matches`: the flag is updated to
`not rule.negated` at every rule that matches, so the last matching rule
wins. -/
def matchesLoop (norm : String) (eff : Bool) : List IgnoreRule → Bool → Bool
  | [], matched => matched
  | r :: rest, matched =>
    matchesLoop norm eff rest (if r.matches norm eff then !r.negated else matched)

/-- `IgnoreParser.matches` for a parser with rule list `rules` and no base
path: the path is normalized, the effective directory flag is
`is_dir or p.is_dir()` (the filesystem oracle), and the rules are folded in
insertion order starting from `False`. -/
def parserMatches (rules : List IgnoreRule) (fsIsDir : String → Bool)
    (path : String) (isDir : Bool) : Bool :=
  matchesLoop (normalizePath path) (isDir || fsIsDir path) rules false

/-- `IgnoreParser.filter`: keeps, in order, exactly the paths for which
`matches` is false (with the default `is_dir=False` argument). -/
def parserFilter (rules : List IgnoreRule) (fsIsDir : String → Bool)
    (paths : List String) : List String :=
  paths.filter (fun p => !(parserMatches rules fsIsDir p false))

/-! ## `IgnoreParser.add_lines` -/

/-- Python whitespace for `str.strip()` (the ASCII cases). -/
def pyIsSpace (c : Char) : Bool :=
  c == ' ' || c == '\t' || c == '\n' || c == '\r' || c == '\x0b' || c == '\x0c'

/-- Python's `str.strip()`: removes whitespace from both ends. -/
def pyStrip (s : String) : String :=
  String.mk (((s.data.dropWhile pyIsSpace).reverse.dropWhile pyIsSpace).reverse)

/-- `IgnoreParser.add_lines` starting from an empty rule list: each line is
stripped; empty lines and lines starting with `#` are skipped; every other
line becomes a rule appended in order. -/
def addLines (lines : List String) : List IgnoreRule :=
  lines.foldl
    (fun acc line =>
      let line := pyStrip line
      if line.data.isEmpty || line.data.head? = some '#' then acc
      else acc ++ [ruleFromPattern line])
    []

/-! ## Helper lemmas -/

/-- The rule loop of `IgnoreParser.matches` is a left fold. -/
theorem matchesLoop_eq_foldl (norm : String) (eff : Bool) (rules : List IgnoreRule)
    (acc : Bool) :
    matchesLoop norm eff rules acc =
      rules.foldl (fun flag r => if r.matches norm eff then !r.negated else flag) acc := by
  induction rules generalizing acc with
  | nil => rfl
  | cons r rest ih => simp only [matchesLoop, List.foldl_cons, ih]

/-- A pattern with no `/` compiles to the same regex as the pattern
preceded by `**/` (the transformation `_normalize_pattern` performs). -/
theorem patternToRegexL_noSlash (p : List Char) (h : p.contains '/' = false) :
    patternToRegexL p = patternToRegexL ('*' :: '*' :: '/' :: p) := by
  have h2 : ('*' :: '*' :: '/' :: p).contains '/' = true := by
    simp [List.contains_cons]
  unfold patternToRegexL normalizePatternL
  rw [h, h2]
  simp

/-- The head of `dropWhile p` fails `p`. -/
theorem head?_dropWhile_false (p : Char → Bool) (l : List Char) (c : Char)
    (h : (l.dropWhile p).head? = some c) : p c = false := by
  induction l with
  | nil => simp [List.dropWhile] at h
  | cons a t ih =>
    rw [List.dropWhile_cons] at h
    by_cases hp : p a
    · exact ih (by simpa [hp] using h)
    · simp [hp] at h
      subst h
      simpa using hp

/-- The element just after the `takeWhile p` part of a list fails `p`. -/
theorem takeWhile_getD_false (p : Char → Bool) (l : List Char)
    (h : (l.takeWhile p).length < l.length) :
    p (l.getD (l.takeWhile p).length ' ') = false := by
  induction l with
  | nil => simp at h
  | cons a t ih =>
    rw [List.takeWhile_cons] at h ⊢
    by_cases hp : p a
    · simp only [hp, if_true, List.length_cons] at h ⊢
      have := ih (by omega)
      simpa using this
    · simp only [hp, if_false, List.length_nil]
      simpa using hp

/-- When the scan for a closing bracket stops inside the text, it stops on a
`]`. -/
theorem findClose_mem (text : List Char) (j : Nat)
    (h : findCloseBracketFrom text j < text.length) :
    text.getD (findCloseBracketFrom text j) ' ' = ']' := by
  have hk : findCloseBracketFrom text j =
      j + ((text.drop j).takeWhile (fun c => c ≠ ']')).length := rfl
  set k := ((text.drop j).takeWhile (fun c => c ≠ ']')).length with hkdef
  rw [hk] at h ⊢
  have hklen : k < (text.drop j).length := by
    rw [List.length_drop]
    omega
  have hfail := takeWhile_getD_false (fun c => c ≠ ']') (text.drop j)
    (by rw [← hkdef]; exact hklen)
  rw [← hkdef] at hfail
  have hgd : (text.drop j).getD k ' ' = text.getD (j + k) ' ' := by
    show ((text.drop j).get? k).getD ' ' = (text.get? (j + k)).getD ' '
    rw [List.get?_eq_getElem?, List.get?_eq_getElem?, List.getElem?_drop]
  rw [hgd] at hfail
  simpa using hfail

/-- `CharacterClassHandler.handle` never fails: it returns either the escaped
literal `[` (no closing bracket) or the verbatim slice of the text up to and
including a closing bracket. -/
theorem handleCharClass_spec (text : List Char) (pos : Nat) :
    handleCharClass text pos = (reEscapeChar '[', pos + 1)
    ∨ ∃ i, i < text.length ∧ text.getD i ' ' = ']'
        ∧ handleCharClass text pos = ((text.drop pos).take (i + 1 - pos), i + 1) := by
  unfold handleCharClass
  dsimp only
  split_ifs <;>
    first
      | (left; rfl)
      | (rename_i hfc
         right
         exact ⟨_, hfc, findClose_mem _ _ hfc, rfl⟩)

/-- The last character of a stripped string is not whitespace. -/
theorem pyStrip_getLast (s : String) (c : Char)
    (h : (pyStrip s).data.getLast? = some c) : pyIsSpace c = false := by
  have hdata : (pyStrip s).data =
      ((s.data.dropWhile pyIsSpace).reverse.dropWhile pyIsSpace).reverse := rfl
  rw [hdata, List.getLast?_reverse] at h
  exact head?_dropWhile_false pyIsSpace _ c h

/-- The first character of a stripped string is not whitespace. -/
theorem pyStrip_head (s : String) (c : Char)
    (h : (pyStrip s).data.head? = some c) : pyIsSpace c = false := by
  have hdata : (pyStrip s).data =
      ((s.data.dropWhile pyIsSpace).reverse.dropWhile pyIsSpace).reverse := rfl
  set x := s.data.dropWhile pyIsSpace with hx
  have hsuffix : x.reverse.dropWhile pyIsSpace <:+ x.reverse :=
    List.dropWhile_suffix pyIsSpace
  have hpre : (x.reverse.dropWhile pyIsSpace).reverse <+: x := by
    have := List.reverse_prefix.mpr hsuffix
    simpa using this
  obtain ⟨t, ht⟩ := hpre
  rw [hdata] at h
  have hxhead : x.head? = some c := by
    rw [← ht, List.head?_append, h]
    rfl
  exact head?_dropWhile_false pyIsSpace s.data c hxhead

/-- The loop of `add_lines`, for an arbitrary starting rule list: stripped
non-comment non-empty lines are appended as rules in order. -/
theorem addLines_foldl (lines : List String) (acc : List IgnoreRule) :
    lines.foldl
      (fun acc line =>
        let line := pyStrip line
        if line.data.isEmpty || line.data.head? = some '#' then acc
        else acc ++ [ruleFromPattern line])
      acc
    = acc ++ (((lines.map pyStrip).filter
        (fun l => !(l.data.isEmpty || l.data.head? = some '#'))).map ruleFromPattern) := by
  induction lines generalizing acc with
  | nil => simp
  | cons l rest ih =>
    simp only [List.foldl_cons, List.map_cons, List.filter_cons]
    by_cases h : (pyStrip l).data.isEmpty || (pyStrip l).data.head? = some '#'
    · simp only [h, if_pos]
      rw [ih]
      simp [h]
    · simp only [h, if_neg]
      rw [ih]
      simp [h]

/-- `from_pattern` stores the original pattern text unchanged. -/
theorem ruleFromPattern_pattern (s : String) : (ruleFromPattern s).pattern = s := rfl

/-! ## The claims -/

/-- Claim C1: `IgnoreParser.matches(path, isDir)` equals a left fold over the
rules in insertion order starting from `flag = false`, where each matching
rule sets the flag to the negation of its `negated` bit (a matching
non-negated rule sets it to `true`, a matching negated rule sets it to
`false`, non-matching rules leave it unchanged) — last-match-wins; a parser
with zero rules returns `false` for every path; rules
`["*.log", "!important.log"]` give `matches("app.log") = true` and
`matches("important.log") = false`, and the reversed order
`["!important.log", "*.log"]` gives `matches("important.log") = true`. -/
theorem C1_matches_last_match_wins :
    (∀ (rules : List IgnoreRule) (fs : String → Bool) (path : String) (isDir : Bool),
      parserMatches rules fs path isDir =
        rules.foldl
          (fun flag r =>
            if r.matches (normalizePath path) (isDir || fs path) then !r.negated
            else flag)
          false)
    ∧ (∀ (fs : String → Bool) (path : String) (isDir : Bool),
        parserMatches [] fs path isDir = false)
    ∧ parserMatches [ruleFromPattern "*.log", ruleFromPattern "!important.log"]
        (fun _ => false) "app.log" false = true
    ∧ parserMatches [ruleFromPattern "*.log", ruleFromPattern "!important.log"]
        (fun _ => false) "important.log" false = false
    ∧ parserMatches [ruleFromPattern "!important.log", ruleFromPattern "*.log"]
        (fun _ => false) "important.log" false = true := by
  refine ⟨?_, ?_, by decide, by decide, by decide⟩
  · intro rules fs path isDir
    exact matchesLoop_eq_foldl _ _ _ _
  · intro fs path isDir
    rfl

/-- Counterexample to claim C2 as stated: the matcher compiled from
`"file[!a-c].dat"` does NOT accept `"filed.dat"` while rejecting
`"filea.dat"` — the code passes the `!` marker through to the target regex,
where it is a literal class member, so the behavior is the opposite of glob
negated-class semantics. -/
theorem C2_counterexample :
    ¬(globAccepts "file[!a-c].dat" "filed.dat" = true
      ∧ globAccepts "file[!a-c].dat" "filea.dat" = false) := by decide

/-- Claim C2 (amended): plain character classes realize glob class semantics
(`test[0-9].txt` accepts `test5.txt` and rejects `testA.txt`), and the class
text including a leading `!` marker is passed through unmodified
(`handleCharClass` captures `[!a-c]` verbatim); because `!` is not regex
negation, `file[!a-c].dat` accepts `filea.dat` and `file!.dat` but rejects
`filed.dat`. -/
theorem C2_character_classes :
    globAccepts "test[0-9].txt" "test5.txt" = true
    ∧ globAccepts "test[0-9].txt" "testA.txt" = false
    ∧ handleCharClass "file[!a-c].dat".data 4 = ("[!a-c]".data, 10)
    ∧ globAccepts "file[!a-c].dat" "filea.dat" = true
    ∧ globAccepts "file[!a-c].dat" "file!.dat" = true
    ∧ globAccepts "file[!a-c].dat" "filed.dat" = false := by
  refine ⟨by decide, by decide, by decide, by decide, by decide, by decide⟩

/-- Counterexample to claim C3 as stated: the matcher compiled from the
no-slash literal pattern `"foo"` does accept `"xfoo"` and `"a/xfoo"` — the
`**/` prefix compiles to `.*` joined without a `/` separator, so the match
need not start at a path-segment boundary. -/
theorem C3_counterexample :
    ¬(globAccepts "foo" "xfoo" = false ∧ globAccepts "foo" "a/xfoo" = false) := by
  decide

/-- Claim C3 (amended): a pattern with no `/` is compiled exactly as if
prefixed with `**/` (the two produce identical regexes); the resulting
matcher for `"foo"` is `^.*foo$`, which accepts a path iff it ends with
`foo` at ANY position, segment boundary or not: it accepts `"foo"` and
`"a/foo"`, but also `"xfoo"` and `"a/xfoo"`. -/
theorem C3_no_slash_matches_any_suffix :
    (∀ p : List Char, p.contains '/' = false →
       patternToRegexL p = patternToRegexL ('*' :: '*' :: '/' :: p))
    ∧ patternToRegex "foo" = "^.*foo$"
    ∧ globAccepts "foo" "foo" = true
    ∧ globAccepts "foo" "a/foo" = true
    ∧ globAccepts "foo" "xfoo" = true
    ∧ globAccepts "foo" "a/xfoo" = true := by
  refine ⟨patternToRegexL_noSlash, by decide, by decide, by decide, by decide, by decide⟩

/-- Witness for claim C3's amended theorem at the concrete pattern `foo`. -/
theorem C3_no_slash_matches_any_suffix_witness :
    patternToRegexL ['f', 'o', 'o'] =
      patternToRegexL ('*' :: '*' :: '/' :: ['f', 'o', 'o']) :=
  C3_no_slash_matches_any_suffix.1 ['f', 'o', 'o'] (by decide)

/-- Claim C4: the rule built from `"build/"` matches `build` as a directory,
matches `build/sub/file` as a plain file, and does not match a plain file
named `build`. -/
theorem C4_dir_only_rule_build :
    (ruleFromPattern "build/").matches "build" true = true
    ∧ (ruleFromPattern "build/").matches "build/sub/file" false = true
    ∧ (ruleFromPattern "build/").matches "build" false = false := by
  refine ⟨by decide, by decide, by decide⟩

/-- Counterexample to claim C5 as stated: the rule built from `"!build/"`
returns `true` for `matches("build", isDir = false)` — the code compares
the path against `pattern.strip("/")` of the ORIGINAL pattern, which keeps
the leading `!` (`"!build"`), so the directory-name exemption does not fire
for negated rules. -/
theorem C5_counterexample :
    (ruleFromPattern "!build/").matches "build" false = true := by decide

/-- Claim C5 (amended): for every dir-only rule, `matches(path, isDir=false)`
returns `false` whenever the path is exactly the rule's original pattern text
with `/` stripped from BOTH ends (the leading `!` is not removed); hence
`stripSlashes "!build/" = "!build"`, the rule from `"!build/"` still matches
the plain file `build`, and it does not match a plain file named `!build`. -/
theorem C5_dir_only_exemption_uses_raw_pattern :
    (∀ (r : IgnoreRule) (path : String), r.dirOnly = true →
       path = stripSlashes r.pattern → r.matches path false = false)
    ∧ stripSlashes "!build/" = "!build"
    ∧ (ruleFromPattern "!build/").matches "build" false = true
    ∧ (ruleFromPattern "!build/").matches "!build" false = false := by
  refine ⟨?_, by decide, by decide, by decide⟩
  intro r path hdir hpath
  unfold IgnoreRule.matches
  by_cases hre : regexAccepts r.regex path
  · simp [hre, hdir, hpath]
  · simp [hre]

/-- Witness for claim C5's amended theorem: the non-negated dir-only rule
from `"build/"` at the path equal to its stripped pattern text. -/
theorem C5_dir_only_exemption_uses_raw_pattern_witness :
    (ruleFromPattern "build/").matches "build" false = false :=
  C5_dir_only_exemption_uses_raw_pattern.1 (ruleFromPattern "build/") "build"
    (by decide) (by decide)

/-- Claim C6: `filter` returns the subsequence of its input on which
`matches` is false, order preserved; with the rule set
`["*.log", "build/", ".venv/", "!important.log"]` and the seven candidate
paths (where `build` and `.venv` carry the directory flag), the result is
exactly `["important.log", "main.py"]`. -/
theorem C6_end_to_end_filter :
    (∀ (rules : List IgnoreRule) (fs : String → Bool) (paths : List String),
       parserFilter rules fs paths =
         paths.filter (fun p => !(parserMatches rules fs p false)))
    ∧ (∀ (rules : List IgnoreRule) (fs : String → Bool) (paths : List String),
       (parserFilter rules fs paths).Sublist paths)
    ∧ parserFilter
        [ruleFromPattern "*.log", ruleFromPattern "build/",
         ruleFromPattern ".venv/", ruleFromPattern "!important.log"]
        (fun p => p == "build" || p == ".venv")
        ["app.log", "important.log", "build", "build/out.o",
         ".venv", ".venv/lib", "main.py"]
      = ["important.log", "main.py"] := by
  refine ⟨fun _ _ _ => rfl, fun _ _ paths => List.filter_sublist paths, by decide⟩

/-- Counterexample to claim C7 as stated: with the single rule `"build/"`,
`matches("build", is_dir=false)` is `true` when the filesystem reports
`build` as an existing directory and `false` when it does not —
`IgnoreParser.matches` calls `p.is_dir()`, so its result DOES depend on
external filesystem state. -/
theorem C7_counterexample :
    parserMatches [ruleFromPattern "build/"] (fun p => p == "build") "build" false = true
    ∧ parserMatches [ruleFromPattern "build/"] (fun _ => false) "build" false = false := by
  refine ⟨by decide, by decide⟩

/-- Claim C7 (amended): after construction `IgnoreParser.matches` is a
deterministic function of the rules, the two arguments AND the filesystem's
`is_dir` answer for the queried path: two filesystem states that agree on
the queried path give the same result, and when `is_dir=true` is passed the
filesystem answer is irrelevant. -/
theorem C7_matches_depends_only_on_is_dir_oracle :
    (∀ (rules : List IgnoreRule) (fs fs' : String → Bool) (path : String) (isDir : Bool),
       fs path = fs' path →
       parserMatches rules fs path isDir = parserMatches rules fs' path isDir)
    ∧ (∀ (rules : List IgnoreRule) (fs : String → Bool) (path : String),
       parserMatches rules fs path true =
         parserMatches rules (fun _ => false) path true) := by
  constructor
  · intro rules fs fs' path isDir h
    unfold parserMatches
    rw [h]
  · intro rules fs path
    rfl

/-- Witness for claim C7's amended theorem: two oracles that agree on the
queried path give the same answer. -/
theorem C7_matches_depends_only_on_is_dir_oracle_witness :
    parserMatches [ruleFromPattern "build/"] (fun p => p == "other") "build" false
      = parserMatches [ruleFromPattern "build/"] (fun _ => false) "build" false :=
  C7_matches_depends_only_on_is_dir_oracle.1
    [ruleFromPattern "build/"] (fun p => p == "other") (fun _ => false)
    "build" false (by decide)

/-- Claim C8: `*.py` accepts `x.py` and `a/b/x.py` but rejects `x.pyc`;
`/root-only` is root-anchored, accepting `root-only` but not `a/root-only`;
`**/*.log` accepts both `app.log` and `a/b/app.log`. -/
theorem C8_anchoring_and_recursive_wildcard :
    globAccepts "*.py" "x.py" = true
    ∧ globAccepts "*.py" "a/b/x.py" = true
    ∧ globAccepts "*.py" "x.pyc" = false
    ∧ globAccepts "/root-only" "root-only" = true
    ∧ globAccepts "/root-only" "a/root-only" = false
    ∧ globAccepts "**/*.log" "app.log" = true
    ∧ globAccepts "**/*.log" "a/b/app.log" = true := by
  refine ⟨by decide, by decide, by decide, by decide, by decide, by decide, by decide⟩

/-- Claim C9: `pattern_to_regex` is total — the character-class handler
always returns a result, emitting an escaped literal `[` when no closing
bracket exists and the verbatim class slice otherwise; in particular
`pattern_to_regex("[]broken")` succeeds, treats the stray `[` (and `]`)
literally, and the resulting matcher accepts the literal path
`[]broken`. -/
theorem C9_pattern_to_regex_total :
    (∀ (text : List Char) (pos : Nat),
       handleCharClass text pos = (reEscapeChar '[', pos + 1)
       ∨ ∃ i, i < text.length ∧ text.getD i ' ' = ']'
           ∧ handleCharClass text pos = ((text.drop pos).take (i + 1 - pos), i + 1))
    ∧ patternToRegex "[]broken" = "^.*\\[\\]broken$"
    ∧ globAccepts "[]broken" "[]broken" = true := by
  refine ⟨handleCharClass_spec, by decide, by decide⟩

/-- Claim C10: `add_lines` strips each line before the blank/comment test and
before rule creation: it equals mapping `strip` then filtering out empty and
`#`-initial lines then building rules; two lines with the same stripped text
produce identical rules; whitespace-only lines and lines whose first
non-whitespace character is `#` are skipped; every stored rule's pattern
starts and ends with a non-whitespace character. -/
theorem C10_add_lines_strips_and_skips :
    (∀ lines : List String,
       addLines lines =
         ((lines.map pyStrip).filter
            (fun l => !(l.data.isEmpty || l.data.head? = some '#'))).map ruleFromPattern)
    ∧ (∀ l1 l2 : String, pyStrip l1 = pyStrip l2 → addLines [l1] = addLines [l2])
    ∧ (∀ line : String, line.data.all pyIsSpace = true → addLines [line] = [])
    ∧ (∀ line : String, (pyStrip line).data.head? = some '#' → addLines [line] = [])
    ∧ (∀ (lines : List String) (r : IgnoreRule), r ∈ addLines lines →
         (∀ c, r.pattern.data.head? = some c → pyIsSpace c = false)
         ∧ (∀ c, r.pattern.data.getLast? = some c → pyIsSpace c = false)) := by
  have hchar : ∀ lines : List String,
      addLines lines =
        ((lines.map pyStrip).filter
          (fun l => !(l.data.isEmpty || l.data.head? = some '#'))).map ruleFromPattern := by
    intro lines
    have h := addLines_foldl lines []
    simpa [addLines] using h
  refine ⟨hchar, ?_, ?_, ?_, ?_⟩
  · intro l1 l2 h
    rw [hchar [l1], hchar [l2]]
    simp [h]
  · intro line h
    have h' : pyStrip line = String.mk [] := by
      unfold pyStrip
      have hd : line.data.dropWhile pyIsSpace = [] :=
        List.dropWhile_eq_nil_iff.mpr (by simpa [List.all_eq_true] using h)
      rw [hd]
      rfl
    rw [hchar [line]]
    simp [h']
  · intro line h
    rw [hchar [line]]
    simp [h]
  · intro lines r hr
    rw [hchar lines] at hr
    obtain ⟨l, hl, hrl⟩ := List.mem_map.mp hr
    have hpat : r.pattern = l := by rw [← hrl]; rfl
    obtain ⟨hl', _⟩ := List.mem_filter.mp hl
    obtain ⟨l0, _, hl0⟩ := List.mem_map.mp hl'
    constructor
    · intro c hc
      rw [hpat] at hc
      rw [← hl0] at hc
      exact pyStrip_head l0 c hc
    · intro c hc
      rw [hpat] at hc
      rw [← hl0] at hc
      exact pyStrip_getLast l0 c hc

/-- Witness for claim C10's theorem: two lines differing only in surrounding
whitespace produce identical rule lists. -/
theorem C10_add_lines_strips_and_skips_witness :
    addLines ["  *.log"] = addLines ["*.log  "] :=
  C10_add_lines_strips_and_skips.2.1 "  *.log" "*.log  " (by decide)
